import Mathlib

/-!
Verification of the core logic of the `o365-drive` utility
(`o365_drive.py`): the chunked tabular range writer, the spreadsheet
column-label converter, worksheet reset ordering, file-existence
error discrimination, null normalization, and remote path traversal.

Python structures are embedded shallowly: a pandas DataFrame becomes a
header (column names) plus a list of rows of cells; a remote range
update becomes a `RangeWrite` record capturing the range address
components and the payload handed to the API; stateful workbook
operations become explicit state passing over the list of worksheet
names; Python exceptions become `Except` / `Option` results.
-/

/-- A spreadsheet cell value: the closed variant of scalar values a
table cell may hold, with `null` for a missing value (pandas `NaN`). -/
inductive Cell where
  | null : Cell
  | str : String → Cell
  | num : Int → Cell
  | boolean : Bool → Cell
deriving DecidableEq, Repr

/-- An in-memory table: ordered column names (the header) and the data
rows, each row a list of cells (`df.columns` and `df.values`). -/
structure DataFrame where
  header : List String
  rows : List (List Cell)
deriving DecidableEq, Repr

/-- One remote range update issued by `__insert_data`: the address
components `{colStart}{rowStart}:{colEnd}{rowEnd}` and the values
payload assigned to the range before `update()`. -/
structure RangeWrite where
  colStart : String
  colEnd : String
  rowStart : Nat
  rowEnd : Nat
  payload : List (List Cell)
deriving DecidableEq, Repr

/-- Python list slicing `l[a:b]` for `0 ≤ a ≤ b` (as used in
`data[row_start-1:row_end]`). -/
def pySlice (l : List α) (a b : Nat) : List α := (l.take b).drop a

/-- The range address string `f"{col_start}{row_start}:{col_end}{row_end}"`
built by `__insert_data`. -/
def rangeAddress (w : RangeWrite) : String :=
  w.colStart ++ toString w.rowStart ++ ":" ++ w.colEnd ++ toString w.rowEnd

/-- The loop body of `__convert_header_name`, with explicit fuel so the
definition is structural. Each iteration replaces `n` by `(n-1)/26`,
which is strictly smaller for `n > 0`, so fuel `n` is always enough;
`convert_header_name_recurrence` below proves this definition satisfies
the Python loop's recurrence exactly. -/
def convertGo : Nat → Nat → String → String
  | _, 0, acc => acc
  | 0, _ + 1, acc => acc
  | fuel + 1, n + 1, acc =>
      convertGo fuel (n / 26) (Char.toString (Char.ofNat (65 + n % 26)) ++ acc)

/-- Embedding of `__convert_header_name`: convert a column count to the spreadsheet
column letter (bijective base 26): repeatedly take `divmod(n - 1, 26)`
and prepend `chr(65 + remainder)` while `n > 0`. -/
def convert_header_name (n : Nat) : String := convertGo n n ""

/-- Embedding of `__insert_data`: one range write; the payload is the Python slice
`data[row_start - 1 : row_end]`. -/
def insert_data (data : List (List Cell)) (colStart colEnd : String)
    (rowStart rowEnd : Nat) : RangeWrite :=
  ⟨colStart, colEnd, rowStart, rowEnd, pySlice data (rowStart - 1) rowEnd⟩

/-- The `for i in range(n_iter)` loop of `__df_to_excel`, run for `k`
remaining iterations: clip `row_end` to `n_row` when `n_row < row_end`,
issue the write, then advance both bounds by `chunk`. -/
def insertLoop (data : List (List Cell)) (colName : String)
    (nRow chunk : Nat) : Nat → Nat → Nat → List RangeWrite
  | _, _, 0 => []
  | rowStart, rowEnd, k + 1 =>
      let rowEnd' := if nRow < rowEnd then nRow else rowEnd
      insert_data data "A" colName rowStart rowEnd' ::
        insertLoop data colName nRow chunk (rowStart + chunk) (rowEnd' + chunk) k

/-- Embedding of `math.ceil(a / b)` for naturals with `b > 0`. -/
def mathCeilDiv (a b : Nat) : Nat := (a + b - 1) / b

/-- The header-plus-rows value matrix `[df.columns.values.tolist()] +
df.values.tolist()` built by `__df_to_excel`. -/
def dfData (df : DataFrame) : List (List Cell) :=
  df.header.map Cell.str :: df.rows

/-- Embedding of `__df_to_excel`: compute `n_row = len(df) + 1` (header counted in),
`n_iter = ceil(n_row / chunk)`, the column letter for `n_col`, then
either a single write of rows `1..n_row` (when `n_iter < 2`) or the
chunking loop starting at `row_start = 1`, `row_end = chunk`. Returns
the sequence of range writes issued. -/
def df_to_excel (df : DataFrame) (chunk : Nat) : List RangeWrite :=
  let data := dfData df
  let nCol := df.header.length
  let nRow := df.rows.length + 1
  let nIter := mathCeilDiv nRow chunk
  let colName := convert_header_name nCol
  if nIter < 2 then
    [insert_data data "A" colName 1 nRow]
  else
    insertLoop data colName nRow chunk 1 chunk nIter

/-- Embedding of `rename_worksheet` / `ws.update(name=...)` applied to the first
worksheet carrying `old` (the one `get_worksheet` returns): the workbook
state is the list of worksheet names. -/
def renameFirst : List String → String → String → List String
  | [], _, _ => []
  | x :: xs, old, new =>
      if x = old then new :: xs else x :: renameFirst xs old new

/-- Embedding of `create_worksheet`: add a worksheet only when `worksheet_is_exist`
is false (`add_worksheet` appends a new sheet). -/
def create_worksheet (wb : List String) (sheet : String) : List String :=
  if sheet ∈ wb then wb else wb ++ [sheet]

/-- Embedding of `delete_worksheet`: look the sheet up with `get_worksheet`, and only
if it exists and `get_worsheet_count(wb) > 1`, issue the remote delete
(remove the first worksheet with that name). Returns the new state and,
when a remote delete call was issued, the worksheet count at the moment
of the call. -/
def delete_worksheet (wb : List String) (sheet : String) :
    List String × Option Nat :=
  if sheet ∈ wb ∧ 1 < wb.length then (wb.erase sheet, some wb.length)
  else (wb, none)

/-- Embedding of `blank_worksheet`: if the sheet exists and `create_new_ws` is true,
rename it to `sheet + "__temp__"`, create a fresh sheet under the
original name, then delete the temp one; if `create_new_ws` is false,
clear the used range in place (workbook membership unchanged); if the
sheet does not exist, create it. Returns the sequence of workbook states
(initial state first, then the state after each step) and the counts at
which remote delete calls were issued. -/
def blank_worksheet (wb : List String) (sheet : String)
    (createNewWs : Bool) : List (List String) × List Nat :=
  if sheet ∈ wb then
    if createNewWs then
      let temp := sheet ++ "__temp__"
      let wb1 := renameFirst wb sheet temp
      let wb2 := create_worksheet wb1 sheet
      let d := delete_worksheet wb2 temp
      ([wb, wb1, wb2, d.1], d.2.toList)
    else
      ([wb, wb], [])
  else
    ([wb, create_worksheet wb sheet], [])

/-- The HTTP error raised by a failed `get_item_by_path` lookup.
`errorCode` models `e.response.json().get('error', {}).get('code', '')`:
`none` when the body carries no code (the `.get` default `''` applies). -/
structure HttpErr where
  errorCode : Option String
deriving DecidableEq, Repr

/-- Outcome of the remote `drive.get_item_by_path(file_path)` call. -/
inductive LookupResult where
  | found : LookupResult
  | httpError : HttpErr → LookupResult
deriving DecidableEq, Repr

/-- Embedding of `__file_is_exist`: return `True` when the lookup succeeds; on an
`HTTPError`, return `False` when the API error code is `"itemNotFound"`
and re-raise the error otherwise. -/
def file_is_exist (lookup : LookupResult) : Except HttpErr Bool :=
  match lookup with
  | .found => .ok true
  | .httpError e =>
      if e.errorCode.getD "" = "itemNotFound" then .ok false else .error e

/-- Embedding of `__get_excel_file_instance`: when `__file_is_exist` reports `False`,
generate an empty local excel file and upload it. Returns whether that
creation step ran; lookup errors propagate. -/
def get_excel_file_instance (lookup : LookupResult) : Except HttpErr Bool :=
  match file_is_exist lookup with
  | .error e => .error e
  | .ok true => .ok false
  | .ok false => .ok true

/-- Sequential execution of the chunk writes of `__df_to_excel` against
a fallible remote `range.update()`: returns the chunks on which an
update was attempted, the chunks committed (update succeeded), and the
overall result — the first raised error propagates immediately and
stops the loop. -/
def run_chunks (insert : RangeWrite → Except String Unit) :
    List RangeWrite → List RangeWrite × List RangeWrite × Except String Unit
  | [] => ([], [], .ok ())
  | w :: ws =>
      match insert w with
      | .ok _ =>
          let r := run_chunks insert ws
          (w :: r.1, w :: r.2.1, r.2.2)
      | .error e => ([w], [], .error e)

/-- One cell of `df.fillna('')`: a missing value becomes the empty
string, any other value is kept. -/
def fillnaCell : Cell → Cell
  | Cell.null => Cell.str ""
  | c => c

/-- Embedding of `df.fillna('', inplace=True)`: normalize every cell of every row. -/
def fillnaDF (df : DataFrame) : DataFrame :=
  ⟨df.header, df.rows.map (fun r => r.map fillnaCell)⟩

/-- Observable outcome of `update_excel_data`: the caller-visible state
of the `df` object after the call (the `inplace=True` mutation shows up
here), the chunk plan handed to the writer, and the write execution
trace. -/
structure UpdateResult where
  callerDf : DataFrame
  plan : List RangeWrite
  attempted : List RangeWrite
  committed : List RangeWrite
  writeResult : Except String Unit

/-- Embedding of `update_excel_data`: normalize nulls with
`df.fillna('', inplace=True)` (mutating the caller's `df`), then run
`__df_to_excel` with the default `chunk = 1000` against the remote
insert. The worksheet-reset side effects are modelled by
`blank_worksheet` separately. -/
def update_excel_data (df : DataFrame)
    (insert : RangeWrite → Except String Unit) : UpdateResult :=
  let df2 := fillnaDF df
  let plan := df_to_excel df2 1000
  let r := run_chunks insert plan
  ⟨df2, plan, r.1, r.2.1, r.2.2⟩

/-- A remote drive item: a name and the child items `get_items()`
returns. -/
inductive DriveItem where
  | mk : String → List DriveItem → DriveItem

/-- The item's `name` attribute. -/
def DriveItem.name : DriveItem → String
  | .mk n _ => n

/-- The item's `get_items()` call. -/
def DriveItem.childItems : DriveItem → List DriveItem
  | .mk _ cs => cs

/-- Python's `sub in hay` on lists of characters: `sub` occurs as a
contiguous substring. -/
def listIn : List Char → List Char → Bool
  | sub, [] => sub.isEmpty
  | sub, c :: cs => sub.isPrefixOf (c :: cs) || listIn sub cs

/-- Python's substring test `sub in hay` on strings. -/
def strIn (sub hay : String) : Bool := listIn sub.data hay.data

/-- Helper for `pySplit`: accumulate characters until the separator. -/
def pySplitAux (sep : Char) : List Char → List Char → List String
  | [], acc => [String.mk acc.reverse]
  | c :: cs, acc =>
      if c = sep then String.mk acc.reverse :: pySplitAux sep cs []
      else pySplitAux sep cs (c :: acc)

/-- Python's `s.split(sep)` for a one-character separator, as used in
`folder_path.split('/')`: splitting the empty string gives `[""]`, and
consecutive separators give empty components. -/
def pySplit (s : String) (sep : Char) : List String :=
  pySplitAux sep s.data []

/-- One level of `__get_folder_from_path`:
`list(filter(lambda x: subfolder in x.name, items))[0]`, with `none`
standing for the `IndexError` the bare `except` turns into a raise. -/
def selectItem (items : List DriveItem) (subfolder : String) :
    Option DriveItem :=
  (items.filter (fun x => strIn subfolder x.name)).head?

/-- The `for subfolder in subfolders` loop of `__get_folder_from_path`:
descend through `get_items()` of the item selected at each level. -/
def folderLoop (folderPath : String) :
    List DriveItem → List String → Option DriveItem →
      Except String (Option DriveItem)
  | _, [], cur => .ok cur
  | items, sub :: rest, _ =>
      match selectItem items sub with
      | none => .error ("Path " ++ folderPath ++ " not exist")
      | some x => folderLoop folderPath x.childItems rest (some x)

/-- Embedding of `__get_folder_from_path`: `None` resolves to the drive itself
(`.ok none`); otherwise split the path on `/` and walk the levels,
starting from the drive's `get_items()`. -/
def get_folder_from_path (rootItems : List DriveItem)
    (folderPath : Option String) : Except String (Option DriveItem) :=
  match folderPath with
  | none => .ok none
  | some p =>
      let subfolders := pySplit p '/'
      if subfolders.length = 0 then .ok none
      else folderLoop p rootItems subfolders none

/-- Rewriting `math.ceil(nRow / chunk)` as `(nRow - 1) / chunk + 1` for `nRow ≥ 1`. -/
theorem mathCeilDiv_eq (nRow chunk : Nat) (h1 : 1 ≤ nRow) (hc : 0 < chunk) :
    mathCeilDiv nRow chunk = (nRow - 1) / chunk + 1 := by
  have h : nRow + chunk - 1 = nRow - 1 + chunk := by omega
  rw [mathCeilDiv, h, Nat.add_div_right _ hc]

theorem nRow_le_iter_mul (nRow chunk : Nat) (h1 : 1 ≤ nRow) (hc : 0 < chunk) :
    nRow ≤ mathCeilDiv nRow chunk * chunk := by
  rw [mathCeilDiv_eq nRow chunk h1 hc]
  have hd := Nat.div_add_mod (nRow - 1) chunk
  have hm := Nat.mod_lt (nRow - 1) hc
  have : ((nRow - 1) / chunk + 1) * chunk = chunk * ((nRow - 1) / chunk) + chunk := by
    ring
  omega

theorem pred_iter_mul_lt_nRow (nRow chunk : Nat) (h1 : 1 ≤ nRow) (hc : 0 < chunk) :
    (mathCeilDiv nRow chunk - 1) * chunk < nRow := by
  rw [mathCeilDiv_eq nRow chunk h1 hc]
  simp only [Nat.add_sub_cancel]
  have := Nat.div_mul_le_self (nRow - 1) chunk
  omega

/-- One clip step `row_end = n_row if n_row < row_end else row_end`
equals `min`. -/
theorem ite_clip_eq_min (a b : Nat) : (if b < a then b else a) = min a b := by
  rw [Nat.min_def]
  by_cases h : b < a
  · rw [if_pos h, if_neg (by omega)]
  · rw [if_neg h, if_pos (by omega)]

theorem insertLoop_zero (data : List (List Cell)) (colName : String)
    (nRow chunk rowStart rowEnd : Nat) :
    insertLoop data colName nRow chunk rowStart rowEnd 0 = [] := rfl

theorem insertLoop_succ (data : List (List Cell)) (colName : String)
    (nRow chunk rowStart rowEnd k : Nat) :
    insertLoop data colName nRow chunk rowStart rowEnd (k + 1) =
      insert_data data "A" colName rowStart
          (if nRow < rowEnd then nRow else rowEnd) ::
        insertLoop data colName nRow chunk (rowStart + chunk)
          ((if nRow < rowEnd then nRow else rowEnd) + chunk) k := by
  simp only [insertLoop]

/-- Closed form of the chunking loop: starting at `row_start = s*chunk + 1`,
`row_end = (s+1)*chunk`, running `k + 1` iterations, provided the loop is
"exactly needed" (`(s+k)*chunk < nRow ≤ (s+k+1)*chunk`), the writes are
`insert_data` at rows `(s+i)*chunk + 1 .. min ((s+i+1)*chunk) nRow`. -/
theorem insertLoop_closed (data : List (List Cell)) (colName : String)
    (nRow chunk : Nat) :
    ∀ k s, (s + k) * chunk < nRow → nRow ≤ (s + k + 1) * chunk →
    insertLoop data colName nRow chunk (s * chunk + 1) ((s + 1) * chunk) (k + 1) =
      (List.range (k + 1)).map (fun i =>
        insert_data data "A" colName ((s + i) * chunk + 1)
          (min ((s + i + 1) * chunk) nRow)) := by
  intro k
  induction k with
  | zero =>
      intro s hlo hhi
      simp [insertLoop_succ, insertLoop_zero, ite_clip_eq_min, List.range_succ]
  | succ k ih =>
      intro s hlo hhi
      rw [show s + (k + 1) = s + 1 + k from by omega] at hlo
      rw [show s + (k + 1) + 1 = s + 1 + k + 1 from by omega] at hhi
      have hle : (s + 1) * chunk ≤ (s + 1 + k) * chunk :=
        Nat.mul_le_mul_right chunk (by omega)
      have hnc : ¬ nRow < (s + 1) * chunk := by omega
      rw [insertLoop_succ, if_neg hnc,
        show s * chunk + 1 + chunk = (s + 1) * chunk + 1 from by ring,
        show (s + 1) * chunk + chunk = (s + 1 + 1) * chunk from by ring,
        ih (s + 1) hlo hhi]
      conv_rhs => rw [List.range_succ_eq_map, List.map_cons, List.map_map]
      congr 1
      · simp only [Nat.add_zero]
        rw [Nat.min_eq_left (by omega)]
      · apply List.map_congr_left
        intro i _
        simp only [Function.comp_apply, Nat.succ_eq_add_one]
        rw [show s + (i + 1) = s + 1 + i from by omega]

/-- Specialization of `insertLoop_closed` at the actual entry point `row_start = 1`,
`row_end = chunk`. -/
theorem insertLoop_closed_zero (data : List (List Cell)) (colName : String)
    (nRow chunk k : Nat) (hlo : k * chunk < nRow) (hhi : nRow ≤ (k + 1) * chunk) :
    insertLoop data colName nRow chunk 1 chunk (k + 1) =
      (List.range (k + 1)).map (fun i =>
        insert_data data "A" colName (i * chunk + 1)
          (min ((i + 1) * chunk) nRow)) := by
  have h := insertLoop_closed data colName nRow chunk k 0
    (by simpa using hlo) (by simpa using hhi)
  simpa using h

/-- The writes issued by `__df_to_excel` in closed form: for `chunk > 0`,
chunk `i` (0-based) covers rows `i*chunk + 1 .. min ((i+1)*chunk) nRow`,
for `i < ceil(nRow / chunk)`, where `nRow` counts the header in. -/
theorem df_to_excel_closed (df : DataFrame) (chunk : Nat) (hc : 0 < chunk) :
    df_to_excel df chunk =
      (List.range (mathCeilDiv (df.rows.length + 1) chunk)).map (fun i =>
        insert_data (dfData df) "A" (convert_header_name df.header.length)
          (i * chunk + 1) (min ((i + 1) * chunk) (df.rows.length + 1))) := by
  have h1 : 1 ≤ df.rows.length + 1 := by omega
  have hlow := pred_iter_mul_lt_nRow (df.rows.length + 1) chunk h1 hc
  have hhigh := nRow_le_iter_mul (df.rows.length + 1) chunk h1 hc
  by_cases hlt : mathCeilDiv (df.rows.length + 1) chunk < 2
  · have hone : mathCeilDiv (df.rows.length + 1) chunk = 1 := by
      rw [mathCeilDiv_eq _ _ h1 hc] at hlt ⊢
      generalize hg : (df.rows.length + 1 - 1) / chunk = d at hlt ⊢
      omega
    rw [hone] at hhigh
    simp only [df_to_excel, hone]
    rw [if_pos (by omega : (1 : Nat) < 2)]
    have hmin : min chunk (df.rows.length + 1) = df.rows.length + 1 := by
      refine Nat.min_eq_right ?_
      have h2 := hhigh
      rw [one_mul] at h2
      exact h2
    simp [List.range_succ, hmin]
  · obtain ⟨k, hk⟩ : ∃ k, mathCeilDiv (df.rows.length + 1) chunk = k + 1 :=
      ⟨mathCeilDiv (df.rows.length + 1) chunk - 1, by omega⟩
    rw [hk] at hlow hhigh hlt
    simp only [Nat.add_sub_cancel] at hlow
    simp only [df_to_excel, hk]
    rw [if_neg (by omega)]
    exact insertLoop_closed_zero (dfData df)
      (convert_header_name df.header.length) (df.rows.length + 1) chunk k hlow hhigh

theorem convertGo_append (fuel : Nat) :
    ∀ n acc, n ≤ fuel → convertGo fuel n acc = convertGo n n "" ++ acc := by
  induction fuel using Nat.strong_induction_on with
  | _ fuel ih =>
      intro n acc h
      match fuel, n with
      | _, 0 =>
          cases fuel <;> simp [convertGo]
      | f + 1, m + 1 =>
          have hm : m / 26 ≤ m := Nat.div_le_self m 26
          rw [convertGo, ih f (by omega) (m / 26) _ (by omega)]
          conv_rhs =>
            rw [convertGo, ih m (by omega) (m / 26) _ (by omega)]
          rw [String.append_assoc, String.append_empty]

/-- The fueled `convert_header_name` satisfies the Python loop's
recurrence: for `n > 0`, process `divmod(n - 1, 26)` and prepend. -/
theorem convert_header_name_recurrence (n : Nat) :
    convert_header_name n =
      if n = 0 then ""
      else convert_header_name ((n - 1) / 26) ++
        Char.toString (Char.ofNat (65 + (n - 1) % 26)) := by
  match n with
  | 0 => rfl
  | m + 1 =>
      simp only [convert_header_name, Nat.add_sub_cancel]
      rw [convertGo, convertGo_append m (m / 26) _ (Nat.div_le_self m 26)]
      simp [String.append_empty]

/-- C2: The column-label converter maps 0 to "", 1 to "A", 26 to "Z",
27 to "AA", 702 to "ZZ" and 703 to "AAA", without raising. -/
theorem c2_column_label_values :
    convert_header_name 0 = "" ∧ convert_header_name 1 = "A" ∧
    convert_header_name 26 = "Z" ∧ convert_header_name 27 = "AA" ∧
    convert_header_name 702 = "ZZ" ∧ convert_header_name 703 = "AAA" := by
  refine ⟨rfl, ?_, ?_, ?_, ?_, ?_⟩ <;> decide

theorem df_to_excel_length (df : DataFrame) (chunk : Nat) (hc : 0 < chunk) :
    (df_to_excel df chunk).length = mathCeilDiv (df.rows.length + 1) chunk := by
  rw [df_to_excel_closed df chunk hc]
  simp

theorem df_to_excel_get (df : DataFrame) (chunk : Nat) (hc : 0 < chunk)
    (i : Nat) (h : i < (df_to_excel df chunk).length) :
    (df_to_excel df chunk).get ⟨i, h⟩ =
      insert_data (dfData df) "A" (convert_header_name df.header.length)
        (i * chunk + 1) (min ((i + 1) * chunk) (df.rows.length + 1)) := by
  have hcl := df_to_excel_closed df chunk hc
  simp only [List.get_eq_getElem]
  rw [List.getElem_of_eq hcl]
  simp

/-- C1: For every table (`n_row = dataRowCount + 1` rows counting the
header) and every `chunkSize > 0`, `__df_to_excel` issues exactly
`ceil(n_row / chunkSize)` range writes; their 1-based `[rowStart, rowEnd]`
intervals start at row 1, are contiguous and non-overlapping, end at
`n_row`, and cover exactly `{1..n_row}`; each write's payload is the
Python slice `data[rowStart-1 : rowEnd]` of the header-plus-rows list;
and the 2500-data-row table with `chunkSize = 1000` produces exactly the
3 writes covering rows 1–1000, 1001–2000 and 2001–2501. -/
theorem c1_chunk_plan (df : DataFrame) (chunk : Nat) (hc : 0 < chunk) :
    (df_to_excel df chunk).length = mathCeilDiv (df.rows.length + 1) chunk ∧
    (∀ h : 0 < (df_to_excel df chunk).length,
      ((df_to_excel df chunk).get ⟨0, h⟩).rowStart = 1) ∧
    (∀ i (h : i + 1 < (df_to_excel df chunk).length),
      ((df_to_excel df chunk).get ⟨i + 1, h⟩).rowStart =
        ((df_to_excel df chunk).get ⟨i, by omega⟩).rowEnd + 1) ∧
    (∀ h : 0 < (df_to_excel df chunk).length,
      ((df_to_excel df chunk).get
        ⟨(df_to_excel df chunk).length - 1, by omega⟩).rowEnd =
          df.rows.length + 1) ∧
    (∀ i j (hi : i < (df_to_excel df chunk).length)
        (hj : j < (df_to_excel df chunk).length), i < j →
      ((df_to_excel df chunk).get ⟨i, hi⟩).rowEnd <
        ((df_to_excel df chunk).get ⟨j, hj⟩).rowStart) ∧
    (∀ r : Nat, (1 ≤ r ∧ r ≤ df.rows.length + 1) ↔
      ∃ w ∈ df_to_excel df chunk, w.rowStart ≤ r ∧ r ≤ w.rowEnd) ∧
    (∀ i (h : i < (df_to_excel df chunk).length),
      ((df_to_excel df chunk).get ⟨i, h⟩).payload =
        pySlice (dfData df) (((df_to_excel df chunk).get ⟨i, h⟩).rowStart - 1)
          ((df_to_excel df chunk).get ⟨i, h⟩).rowEnd) ∧
    (df_to_excel ⟨["c"], List.replicate 2500 [Cell.str "x"]⟩ 1000).map
        (fun w => (w.rowStart, w.rowEnd)) =
      [(1, 1000), (1001, 2000), (2001, 2501)] := by
  have hlen := df_to_excel_length df chunk hc
  have h1 : 1 ≤ df.rows.length + 1 := by omega
  have hhigh := nRow_le_iter_mul (df.rows.length + 1) chunk h1 hc
  have hlow := pred_iter_mul_lt_nRow (df.rows.length + 1) chunk h1 hc
  refine ⟨hlen, ?_, ?_, ?_, ?_, ?_, ?_, ?_⟩
  · intro h
    rw [df_to_excel_get df chunk hc 0 h]
    simp [insert_data]
  · intro i h
    rw [df_to_excel_get df chunk hc (i + 1) h,
      df_to_excel_get df chunk hc i (by omega)]
    simp only [insert_data]
    have hib : i + 1 < mathCeilDiv (df.rows.length + 1) chunk := by omega
    have hmul : (i + 1) * chunk ≤
        (mathCeilDiv (df.rows.length + 1) chunk - 1) * chunk :=
      Nat.mul_le_mul_right chunk (by omega)
    rw [Nat.min_eq_left (by omega)]
  · intro h
    rw [df_to_excel_get df chunk hc _ (by omega)]
    simp only [insert_data]
    have hpos : 0 < mathCeilDiv (df.rows.length + 1) chunk := by omega
    rw [show (df_to_excel df chunk).length - 1 + 1 =
        mathCeilDiv (df.rows.length + 1) chunk from by omega]
    exact Nat.min_eq_right hhigh
  · intro i j hi hj hij
    rw [df_to_excel_get df chunk hc i hi, df_to_excel_get df chunk hc j hj]
    simp only [insert_data]
    have hmul : (i + 1) * chunk ≤ j * chunk :=
      Nat.mul_le_mul_right chunk (by omega)
    have : min ((i + 1) * chunk) (df.rows.length + 1) ≤ (i + 1) * chunk :=
      Nat.min_le_left _ _
    omega
  · intro r
    constructor
    · rintro ⟨hr1, hr2⟩
      have hcl := df_to_excel_closed df chunk hc
      refine ⟨insert_data (dfData df) "A" (convert_header_name df.header.length)
        ((r - 1) / chunk * chunk + 1)
        (min (((r - 1) / chunk + 1) * chunk) (df.rows.length + 1)), ?_, ?_, ?_⟩
      · rw [hcl]
        refine List.mem_map.mpr ⟨(r - 1) / chunk, List.mem_range.mpr ?_, rfl⟩
        rw [mathCeilDiv_eq _ _ h1 hc, Nat.add_sub_cancel]
        have := Nat.div_le_div_right (c := chunk) (by omega : r - 1 ≤ df.rows.length)
        omega
      · simp only [insert_data]
        have := Nat.div_mul_le_self (r - 1) chunk
        omega
      · simp only [insert_data]
        refine Nat.le_min.mpr ⟨?_, hr2⟩
        have hd := Nat.div_add_mod (r - 1) chunk
        have hm := Nat.mod_lt (r - 1) hc
        have he : ((r - 1) / chunk + 1) * chunk =
            chunk * ((r - 1) / chunk) + chunk := by ring
        omega
    · rintro ⟨w, hw, hws, hwe⟩
      have hcl := df_to_excel_closed df chunk hc
      rw [hcl] at hw
      obtain ⟨i, hi, rfl⟩ := List.mem_map.mp hw
      simp only [insert_data] at hws hwe
      have : min ((i + 1) * chunk) (df.rows.length + 1) ≤ df.rows.length + 1 :=
        Nat.min_le_right _ _
      omega
  · intro i h
    rw [df_to_excel_get df chunk hc i h]
    simp [insert_data]
  · have e : (⟨["c"], List.replicate 2500 [Cell.str "x"]⟩ : DataFrame).rows.length
        = 2500 := by
      rw [show (⟨["c"], List.replicate 2500 [Cell.str "x"]⟩ : DataFrame).rows =
        List.replicate 2500 [Cell.str "x"] from rfl, List.length_replicate]
    rw [df_to_excel_closed _ _ (by norm_num : (0 : Nat) < 1000), e]
    decide

/-- C1 witness: the chunk-plan theorem instantiated at a one-data-row
table with `chunkSize = 1`. -/
theorem c1_chunk_plan_witness :
    0 < 1 ∧
    (df_to_excel ⟨["a"], [[Cell.str "b"]]⟩ 1).length =
      mathCeilDiv ((⟨["a"], [[Cell.str "b"]]⟩ : DataFrame).rows.length + 1) 1 :=
  ⟨by decide, (c1_chunk_plan ⟨["a"], [[Cell.str "b"]]⟩ 1 (by decide)).1⟩

/-- C3: whenever `chunkSize ≥ n_row` (total rows, header included), the
writer takes the single-shot branch: the result is exactly one range
write covering rows `1..n_row`, and the chunking loop is not entered. -/
theorem c3_single_write (df : DataFrame) (chunk : Nat)
    (h : df.rows.length + 1 ≤ chunk) :
    df_to_excel df chunk =
      [insert_data (dfData df) "A" (convert_header_name df.header.length)
        1 (df.rows.length + 1)] := by
  have hc : 0 < chunk := by omega
  have hone : mathCeilDiv (df.rows.length + 1) chunk = 1 := by
    rw [mathCeilDiv_eq _ _ (by omega) hc, Nat.add_sub_cancel,
      Nat.div_eq_of_lt (by omega)]
  simp only [df_to_excel, hone]
  rw [if_pos (by omega : (1 : Nat) < 2)]

/-- C3 witness: a 5-data-row table with `chunkSize = 1000` gives one
write of rows 1–6, and a header-only table gives one write of row 1–1. -/
theorem c3_single_write_witness :
    ((⟨["a"], [[Cell.str "1"], [Cell.str "2"], [Cell.str "3"], [Cell.str "4"],
        [Cell.str "5"]]⟩ : DataFrame).rows.length + 1 ≤ 1000 ∧
      df_to_excel ⟨["a"], [[Cell.str "1"], [Cell.str "2"], [Cell.str "3"],
          [Cell.str "4"], [Cell.str "5"]]⟩ 1000 =
        [insert_data (dfData ⟨["a"], [[Cell.str "1"], [Cell.str "2"],
            [Cell.str "3"], [Cell.str "4"], [Cell.str "5"]]⟩) "A"
          (convert_header_name 1) 1 6]) ∧
    ((⟨["a"], []⟩ : DataFrame).rows.length + 1 ≤ 1000 ∧
      df_to_excel ⟨["a"], []⟩ 1000 =
        [insert_data (dfData ⟨["a"], []⟩) "A" (convert_header_name 1) 1 1]) :=
  ⟨⟨by decide, c3_single_write ⟨["a"], [[Cell.str "1"], [Cell.str "2"],
      [Cell.str "3"], [Cell.str "4"], [Cell.str "5"]]⟩ 1000 (by decide)⟩,
    ⟨by decide, c3_single_write ⟨["a"], []⟩ 1000 (by decide)⟩⟩

/-- C4 counterexample: at the concrete zero-column table, the write
operation is NOT an empty operation — it issues one range write whose
column-end label is `convert_header_name 0 = ""`, and the range address
it sends is the malformed `"A1:1"`. -/
theorem c4_counterexample :
    (⟨[], []⟩ : DataFrame).header.length = 0 ∧
    ¬ (df_to_excel ⟨[], []⟩ 1000 = [] ∨
        ∀ w ∈ df_to_excel ⟨[], []⟩ 1000, w.colEnd ≠ convert_header_name 0) ∧
    (df_to_excel ⟨[], []⟩ 1000).map rangeAddress = ["A1:1"] := by
  decide

/-- C4 (amended): for a zero-column table the writer still issues its
range writes; each carries the converter's `n = 0` output `""` as the
column-end label, so the range address degenerates to
`"A{rowStart}:{rowEnd}"` with no column-end letter. -/
theorem c4_zero_columns_behavior (df : DataFrame) (chunk : Nat)
    (hc : 0 < chunk) (h0 : df.header.length = 0) :
    df_to_excel df chunk ≠ [] ∧
    ∀ w ∈ df_to_excel df chunk,
      w.colEnd = convert_header_name 0 ∧ w.colEnd = "" ∧
      rangeAddress w = "A" ++ toString w.rowStart ++ ":" ++
        toString w.rowEnd := by
  constructor
  · intro hnil
    have hlen := df_to_excel_length df chunk hc
    rw [hnil, mathCeilDiv_eq _ _ (by omega) hc] at hlen
    simp at hlen
  · intro w hw
    rw [df_to_excel_closed df chunk hc] at hw
    obtain ⟨i, _, rfl⟩ := List.mem_map.mp hw
    rw [h0]
    refine ⟨rfl, rfl, ?_⟩
    simp [insert_data, rangeAddress, String.append_empty,
      convert_header_name, convertGo]

/-- C4 witness: the amended statement instantiated at the empty table
with the default chunk size. -/
theorem c4_zero_columns_behavior_witness :
    ((0 : Nat) < 1000 ∧ (⟨[], []⟩ : DataFrame).header.length = 0) ∧
    (df_to_excel ⟨[], []⟩ 1000 ≠ [] ∧
      ∀ w ∈ df_to_excel ⟨[], []⟩ 1000,
        w.colEnd = convert_header_name 0 ∧ w.colEnd = "" ∧
        rangeAddress w = "A" ++ toString w.rowStart ++ ":" ++
          toString w.rowEnd) :=
  ⟨⟨by decide, by decide⟩,
    c4_zero_columns_behavior ⟨[], []⟩ 1000 (by decide) (by decide)⟩

theorem renameFirst_length (l : List String) (old new : String) :
    (renameFirst l old new).length = l.length := by
  induction l with
  | nil => rfl
  | cons x xs ih =>
      by_cases h : x = old <;> simp [renameFirst, h, ih]

theorem create_worksheet_length (wb : List String) (s : String) :
    wb.length ≤ (create_worksheet wb s).length := by
  by_cases h : s ∈ wb <;> simp [create_worksheet, h]

theorem delete_worksheet_length (wb : List String) (s : String)
    (h : 1 ≤ wb.length) : 1 ≤ (delete_worksheet wb s).1.length := by
  by_cases hd : s ∈ wb ∧ 1 < wb.length
  · simp only [delete_worksheet, if_pos hd]
    rw [List.length_erase_of_mem hd.1]
    omega
  · simp only [delete_worksheet, if_neg hd]
    exact h

theorem delete_worksheet_call (wb : List String) (s : String) (c : Nat)
    (h : (delete_worksheet wb s).2 = some c) : 1 < c := by
  by_cases hd : s ∈ wb ∧ 1 < wb.length
  · simp only [delete_worksheet, if_pos hd, Option.some.injEq] at h
    omega
  · simp only [delete_worksheet, if_neg hd] at h
    cases h

/-- C5: resetting a worksheet with `create_new_ws = true` renames the
existing sheet to the temp name, creates the fresh sheet under the
original name, and only then deletes the temp sheet; starting from any
workbook with at least one worksheet, every intermediate workbook state
keeps at least one worksheet, and every remote delete call is issued
only when the worksheet count at that moment exceeds one. -/
theorem c5_reset_never_empties (wb : List String) (sheet : String)
    (hwb : 1 ≤ wb.length) :
    (∀ st ∈ (blank_worksheet wb sheet true).1, 1 ≤ st.length) ∧
    (∀ c ∈ (blank_worksheet wb sheet true).2, 1 < c) ∧
    (sheet ∈ wb →
      (blank_worksheet wb sheet true).1 =
        [wb,
         renameFirst wb sheet (sheet ++ "__temp__"),
         create_worksheet (renameFirst wb sheet (sheet ++ "__temp__")) sheet,
         (delete_worksheet
            (create_worksheet (renameFirst wb sheet (sheet ++ "__temp__")) sheet)
            (sheet ++ "__temp__")).1]) := by
  by_cases hm : sheet ∈ wb
  · have h1 : 1 ≤ (renameFirst wb sheet (sheet ++ "__temp__")).length := by
      rw [renameFirst_length]; exact hwb
    have h2 : 1 ≤ (create_worksheet
        (renameFirst wb sheet (sheet ++ "__temp__")) sheet).length :=
      le_trans h1 (create_worksheet_length _ _)
    refine ⟨?_, ?_, fun _ => ?_⟩
    · intro st hst
      simp only [blank_worksheet, if_pos hm, if_true, List.mem_cons,
        List.not_mem_nil, or_false] at hst
      rcases hst with rfl | rfl | rfl | rfl
      · exact hwb
      · exact h1
      · exact h2
      · exact delete_worksheet_length _ _ h2
    · intro c hc
      simp only [blank_worksheet, if_pos hm, if_true] at hc
      rw [Option.mem_toList, Option.mem_def] at hc
      exact delete_worksheet_call _ _ c hc
    · simp only [blank_worksheet, if_pos hm, if_true]
  · refine ⟨?_, ?_, fun hmm => absurd hmm hm⟩
    · intro st hst
      simp only [blank_worksheet, if_neg hm, List.mem_cons,
        List.not_mem_nil, or_false] at hst
      rcases hst with rfl | rfl
      · exact hwb
      · exact le_trans hwb (create_worksheet_length _ _)
    · intro c hc
      simp only [blank_worksheet, if_neg hm, List.not_mem_nil] at hc

/-- C5 witness: the reset invariants instantiated at a single-sheet
workbook whose only sheet is being reset. -/
theorem c5_reset_never_empties_witness :
    1 ≤ (["Sheet1"] : List String).length ∧
    ∀ st ∈ (blank_worksheet ["Sheet1"] "Sheet1" true).1, 1 ≤ st.length :=
  ⟨by decide, (c5_reset_never_empties ["Sheet1"] "Sheet1" (by decide)).1⟩

/-- C6: the file-existence check answers `false` exactly on an HTTP
error whose API error code is `"itemNotFound"` (which is also exactly
when the caller creates an empty file), answers `true` exactly when the
lookup succeeds, and re-raises every other HTTP error unchanged. -/
theorem c6_item_not_found_discrimination (l : LookupResult) :
    (file_is_exist l = .ok false ↔ l = .httpError ⟨some "itemNotFound"⟩) ∧
    (file_is_exist l = .ok true ↔ l = .found) ∧
    (∀ e : HttpErr, file_is_exist l = .error e ↔
      l = .httpError e ∧ e.errorCode.getD "" ≠ "itemNotFound") ∧
    (get_excel_file_instance l = .ok true ↔ file_is_exist l = .ok false) := by
  cases l with
  | found =>
      refine ⟨by simp [file_is_exist], by simp [file_is_exist], ?_, ?_⟩
      · intro e
        simp [file_is_exist]
      · simp [file_is_exist, get_excel_file_instance]
  | httpError err =>
      obtain ⟨oc⟩ := err
      cases oc with
      | none =>
          refine ⟨?_, ?_, ?_, ?_⟩
          · simp [file_is_exist]
          · simp [file_is_exist]
          · intro e
            simp only [file_is_exist, Option.getD_none]
            rw [if_neg (by decide : ¬ ("" = "itemNotFound"))]
            constructor
            · intro h
              cases h
              exact ⟨rfl, by decide⟩
            · rintro ⟨h, _⟩
              cases h
              rfl
          · simp only [get_excel_file_instance, file_is_exist,
              Option.getD_none]
            rw [if_neg (by decide : ¬ ("" = "itemNotFound"))]
            simp
      | some s =>
          by_cases hs : s = "itemNotFound"
          · subst hs
            refine ⟨?_, ?_, ?_, ?_⟩
            · simp [file_is_exist]
            · simp [file_is_exist]
            · intro e
              simp only [file_is_exist, Option.getD_some, if_pos rfl]
              constructor
              · intro h; cases h
              · rintro ⟨h1, h2⟩
                injection h1 with h3
                subst h3
                exact absurd rfl h2
            · simp [get_excel_file_instance, file_is_exist]
          · refine ⟨?_, ?_, ?_, ?_⟩
            · simp only [file_is_exist, Option.getD_some]
              rw [if_neg hs]
              simp only [LookupResult.httpError.injEq, HttpErr.mk.injEq,
                Option.some.injEq]
              constructor
              · intro h; cases h
              · intro h; exact absurd h hs
            · simp only [file_is_exist, Option.getD_some]
              rw [if_neg hs]
              simp
            · intro e
              simp only [file_is_exist, Option.getD_some]
              rw [if_neg hs]
              constructor
              · intro h
                cases h
                exact ⟨rfl, by simpa using hs⟩
              · rintro ⟨h, _⟩
                cases h
                rfl
            · simp only [get_excel_file_instance, file_is_exist,
                Option.getD_some]
              rw [if_neg hs]
              simp

/-- C6 witness: the discrimination instantiated at a success, an
`itemNotFound` failure and an `accessDenied` failure. -/
theorem c6_item_not_found_discrimination_witness :
    file_is_exist (.httpError ⟨some "itemNotFound"⟩) = .ok false ∧
    file_is_exist .found = .ok true ∧
    file_is_exist (.httpError ⟨some "accessDenied"⟩) =
      .error ⟨some "accessDenied"⟩ ∧
    get_excel_file_instance (.httpError ⟨some "itemNotFound"⟩) = .ok true :=
  ⟨(c6_item_not_found_discrimination
      (.httpError ⟨some "itemNotFound"⟩)).1.mpr rfl,
   (c6_item_not_found_discrimination .found).2.1.mpr rfl,
   ((c6_item_not_found_discrimination
      (.httpError ⟨some "accessDenied"⟩)).2.2.1
        ⟨some "accessDenied"⟩).mpr ⟨rfl, by decide⟩,
   (c6_item_not_found_discrimination
      (.httpError ⟨some "itemNotFound"⟩)).2.2.2.mpr
        ((c6_item_not_found_discrimination
          (.httpError ⟨some "itemNotFound"⟩)).1.mpr rfl)⟩

theorem run_chunks_fail (insert : RangeWrite → Except String Unit) :
    ∀ (plan : List RangeWrite) (j : Nat) (hj : j < plan.length) (e : String),
    (∀ i (hi : i < j), insert (plan.get ⟨i, by omega⟩) = .ok ()) →
    insert (plan.get ⟨j, hj⟩) = .error e →
    run_chunks insert plan =
      (plan.take (j + 1), plan.take j, .error e) := by
  intro plan
  induction plan with
  | nil =>
      intro j hj
      simp at hj
  | cons w ws ih =>
      intro j hj e hok hfail
      cases j with
      | zero =>
          have hw : insert w = .error e := hfail
          simp only [run_chunks, hw, List.take_succ_cons, List.take_zero,
            List.take]
      | succ j =>
          have h0 : insert w = .ok () := hok 0 (by omega)
          have hj' : j < ws.length := by
            simp only [List.length_cons] at hj
            omega
          have hok' : ∀ i (hi : i < j),
              insert (ws.get ⟨i, by omega⟩) = .ok () := by
            intro i hi
            exact hok (i + 1) (by omega)
          have hfail' : insert (ws.get ⟨j, hj'⟩) = .error e := hfail
          simp only [run_chunks, h0]
          rw [ih j hj' e hok' hfail']
          simp [List.take_succ_cons]

/-- C7: if the range update of the chunk at 0-based position `j` of the
plan raises while all earlier chunk updates succeed, the whole table
write propagates that error: the chunks attempted are exactly the first
`j + 1`, the chunks committed to the worksheet are exactly the first
`j` (the failing chunk is not retried), and the chunks after `j` are
never attempted. -/
theorem c7_chunk_failure_aborts (df : DataFrame) (chunk : Nat)
    (insert : RangeWrite → Except String Unit) (j : Nat) (e : String)
    (hj : j < (df_to_excel df chunk).length)
    (hok : ∀ i (hi : i < j),
      insert ((df_to_excel df chunk).get ⟨i, by omega⟩) = .ok ())
    (hfail : insert ((df_to_excel df chunk).get ⟨j, hj⟩) = .error e) :
    run_chunks insert (df_to_excel df chunk) =
      ((df_to_excel df chunk).take (j + 1),
       (df_to_excel df chunk).take j, .error e) :=
  run_chunks_fail insert (df_to_excel df chunk) j hj e hok hfail

/-- Remote insert stub that fails exactly on the chunk starting at
row 2. -/
def failAtRow2 : RangeWrite → Except String Unit :=
  fun w => if w.rowStart = 2 then .error "boom" else .ok ()

/-- C7 witness: a 2-data-row table written with `chunk = 1` gives three
chunk writes; failing the second leaves the first committed, the second
attempted but not committed, and the third never attempted. -/
theorem c7_chunk_failure_aborts_witness :
    1 < (df_to_excel ⟨["a"], [[Cell.str "r1"], [Cell.str "r2"]]⟩ 1).length ∧
    run_chunks failAtRow2
        (df_to_excel ⟨["a"], [[Cell.str "r1"], [Cell.str "r2"]]⟩ 1) =
      ((df_to_excel ⟨["a"], [[Cell.str "r1"], [Cell.str "r2"]]⟩ 1).take 2,
       (df_to_excel ⟨["a"], [[Cell.str "r1"], [Cell.str "r2"]]⟩ 1).take 1,
       .error "boom") :=
  ⟨by decide,
   c7_chunk_failure_aborts ⟨["a"], [[Cell.str "r1"], [Cell.str "r2"]]⟩ 1
     failAtRow2 1 "boom" (by decide)
     (by
       intro i hi
       have h0 : i = 0 := by omega
       subst h0
       rfl)
     (by rfl)⟩

theorem mem_insertLoop_payload (data : List (List Cell)) (colName : String)
    (nRow chunk : Nat) :
    ∀ k rowStart rowEnd w,
      w ∈ insertLoop data colName nRow chunk rowStart rowEnd k →
      ∀ row ∈ w.payload, row ∈ data := by
  intro k
  induction k with
  | zero =>
      intro rs re w hw
      simp [insertLoop_zero] at hw
  | succ k ih =>
      intro rs re w hw
      rw [insertLoop_succ] at hw
      rcases List.mem_cons.mp hw with h | h
      · subst h
        intro row hrow
        simp only [insert_data, pySlice] at hrow
        exact List.mem_of_mem_take (List.mem_of_mem_drop hrow)
      · exact ih _ _ w h

theorem mem_df_to_excel_payload (df : DataFrame) (chunk : Nat)
    (w : RangeWrite) (hw : w ∈ df_to_excel df chunk) :
    ∀ row ∈ w.payload, row ∈ dfData df := by
  simp only [df_to_excel] at hw
  by_cases h : mathCeilDiv (df.rows.length + 1) chunk < 2
  · rw [if_pos h] at hw
    simp only [List.mem_singleton] at hw
    subst hw
    intro row hrow
    simp only [insert_data, pySlice] at hrow
    exact List.mem_of_mem_take (List.mem_of_mem_drop hrow)
  · rw [if_neg h] at hw
    exact mem_insertLoop_payload (dfData df) _ _ chunk _ _ _ w hw

theorem fillnaCell_ne_null (c : Cell) : fillnaCell c ≠ Cell.null := by
  cases c <;> simp [fillnaCell]

/-- C8: in `update_excel_data`, every cell value of every payload handed
to a remote range write is non-null: the `fillna('')` normalization runs
before the chunk plan is built, so no null value reaches the remote
API. -/
theorem c8_no_null_reaches_remote (df : DataFrame)
    (insert : RangeWrite → Except String Unit) (w : RangeWrite)
    (row : List Cell) (c : Cell)
    (hw : w ∈ (update_excel_data df insert).plan)
    (hrow : row ∈ w.payload) (hc : c ∈ row) : c ≠ Cell.null := by
  have hplan : (update_excel_data df insert).plan =
      df_to_excel (fillnaDF df) 1000 := rfl
  rw [hplan] at hw
  have hdata := mem_df_to_excel_payload (fillnaDF df) 1000 w hw row hrow
  simp only [dfData, fillnaDF, List.mem_cons] at hdata
  rcases hdata with h | h
  · subst h
    obtain ⟨s, _, rfl⟩ := List.mem_map.mp hc
    simp
  · obtain ⟨r, _, rfl⟩ := List.mem_map.mp h
    obtain ⟨x, _, rfl⟩ := List.mem_map.mp hc
    exact fillnaCell_ne_null x

/-- C8 witness: a table with one null cell produces a single write
whose payload cells are the header name and the empty string; the
normalized cell is non-null. -/
theorem c8_no_null_reaches_remote_witness :
    (⟨"A", "A", 1, 2, [[Cell.str "a"], [Cell.str ""]]⟩ : RangeWrite) ∈
        (update_excel_data ⟨["a"], [[Cell.null]]⟩ (fun _ => .ok ())).plan ∧
    [Cell.str ""] ∈
      (⟨"A", "A", 1, 2, [[Cell.str "a"], [Cell.str ""]]⟩ : RangeWrite).payload ∧
    Cell.str "" ∈ [Cell.str ""] ∧
    Cell.str "" ≠ Cell.null :=
  ⟨by decide, by decide, by decide,
   c8_no_null_reaches_remote ⟨["a"], [[Cell.null]]⟩ (fun _ => .ok ())
     ⟨"A", "A", 1, 2, [[Cell.str "a"], [Cell.str ""]]⟩ [Cell.str ""]
     (Cell.str "") (by decide) (by decide) (by decide)⟩

theorem fillnaCell_eq_ite (c : Cell) :
    fillnaCell c = if c = Cell.null then Cell.str "" else c := by
  cases c <;> rfl

/-- C9: `update_excel_data` mutates its input table in place
(`fillna('', inplace=True)`): the caller-visible `df` after the call —
whatever the remote writes did — is the normalized table itself, with
every null cell replaced by the empty string and all other cells kept,
not a private copy. -/
theorem c9_fillna_mutates_caller (df : DataFrame)
    (insert : RangeWrite → Except String Unit) :
    (update_excel_data df insert).callerDf = fillnaDF df ∧
    (update_excel_data df insert).callerDf.header = df.header ∧
    (update_excel_data df insert).callerDf.rows =
      df.rows.map (fun r => r.map
        (fun c => if c = Cell.null then Cell.str "" else c)) := by
  refine ⟨rfl, rfl, ?_⟩
  show (fillnaDF df).rows = _
  simp only [fillnaDF]
  rw [show fillnaCell = (fun c => if c = Cell.null then Cell.str "" else c)
    from funext fillnaCell_eq_ite]

theorem filter_head_eq_find (p : DriveItem → Bool) (l : List DriveItem) :
    (l.filter p).head? = l.find? p := by
  induction l with
  | nil => rfl
  | cons x xs ih =>
      by_cases h : p x <;> simp [List.filter_cons, List.find?, h, ih]

/-- C10: each path component is resolved by Python substring
containment (`subfolder in x.name`), taking the FIRST matching item —
exact name equality is not required: `selectItem` is `find?` of the
containment predicate, any returned item's name merely contains the
component, any contained match guarantees resolution, and the concrete
two-level walk of `"doc/rep"` picks `"my-documents"` (which contains
`"doc"`) over the exactly-named later item `"doc"`, then
`"reports-2024"` for `"rep"`. -/
theorem c10_substring_first_match (items : List DriveItem) (sub : String) :
    selectItem items sub = items.find? (fun x => strIn sub x.name) ∧
    (∀ x, selectItem items sub = some x → strIn sub x.name = true) ∧
    (∀ x, x ∈ items → strIn sub x.name = true →
      (selectItem items sub).isSome = true) ∧
    get_folder_from_path
        [DriveItem.mk "my-documents" [DriveItem.mk "reports-2024" []],
         DriveItem.mk "doc" [DriveItem.mk "reports" []]]
        (some "doc/rep") =
      .ok (some (DriveItem.mk "reports-2024" [])) := by
  refine ⟨filter_head_eq_find _ items, ?_, ?_, ?_⟩
  · intro x hx
    rw [show selectItem items sub = items.find? (fun x => strIn sub x.name)
      from filter_head_eq_find _ items] at hx
    simpa using List.find?_some hx
  · intro x hx hp
    rw [show selectItem items sub = items.find? (fun x => strIn sub x.name)
      from filter_head_eq_find _ items]
    cases hfind : items.find? (fun z => strIn sub z.name) with
    | none =>
        exact absurd hp (by simpa using (List.find?_eq_none.mp hfind) x hx)
    | some y => rfl
  · rfl

/-- C10 witness: with an item named `"documents-old"` listed before an
item named exactly `"doc"`, the component `"doc"` resolves to the first
substring match, whose name is not `"doc"`. -/
theorem c10_substring_first_match_witness :
    selectItem [DriveItem.mk "documents-old" [], DriveItem.mk "doc" []]
        "doc" = some (DriveItem.mk "documents-old" []) ∧
    strIn "doc" (DriveItem.mk "documents-old" []).name = true ∧
    (DriveItem.mk "documents-old" []).name ≠ "doc" :=
  ⟨rfl,
   (c10_substring_first_match
      [DriveItem.mk "documents-old" [], DriveItem.mk "doc" []] "doc").2.1
     (DriveItem.mk "documents-old" []) rfl,
   by decide⟩
